import Mathlib

/-!
A shallow embedding of the request-handling core of
`sepich/containerd-registry-cache` (a pull-through cache for OCI/Docker
registries), together with theorems checking its natural-language
specification.

Strings are modelled as `List Char` (Go strings are byte strings; every
string handled here is ASCII).  Byte streams are `List Nat`.  The embedded
functions mirror the Go source of the canonical (latest) variant of the
repository: `pkg/cache` (storage engine), `pkg/service` (cache-or-proxy
engine and credential helper) and `pkg/mux` (router).
-/

namespace RegistryCache

/-- Go `strings.ToLower` restricted to the ASCII strings this program
handles (digests, header values). -/
def toLowerStr (s : List Char) : List Char :=
  s.map Char.toLower

/-- Go `strings.HasPrefix`. -/
def hasPrefixStr (pre s : List Char) : Bool :=
  List.isPrefixOf pre s

/-- Go `strings.Replace(s, pat, "", 1)` for a non-empty pattern: remove the
first occurrence of `pat` from `s`, leaving the rest untouched. -/
def replaceOnceEmpty (pat : List Char) : List Char → List Char
  | [] => []
  | c :: rest =>
    if List.isPrefixOf pat (c :: rest) then
      (c :: rest).drop pat.length
    else
      c :: replaceOnceEmpty pat rest

/-- Go `strings.ReplaceAll(s, "/", "_")`: replace every slash. -/
def replaceSlashUnderscore (s : List Char) : List Char :=
  s.map fun c => if c = '/' then '_' else c

/-- Go `strings.ReplaceAll(s, "/", "")` for the single-character pattern:
remove every slash. -/
def removeSlashes (s : List Char) : List Char :=
  s.filter fun c => c ≠ '/'

/-- Model of `model.ObjectType`: `manifest` or `blob`. -/
inductive ObjectType
  | manifest
  | blob
  deriving DecidableEq, Repr

/-- Model of `model.ObjectIdentifier`: the primary key of every cached object. -/
structure ObjectIdentifier where
  Registry : List Char
  Repository : List Char
  Ref : List Char
  Kind : ObjectType
  deriving DecidableEq, Repr

/-- Model of `cache.ObjectToCacheName` (pkg/cache/cache_util.go, canonical variant):
`id := ReplaceAll(Replace(Ref, "sha256:", "", 1), "/", "")`;
blobs map to `blobs/<id[0:2]>/<id>` and manifests to
`<Registry>/<Repository>/<Ref>`.  (Go panics on `id[0:2]` when `id` has
fewer than two bytes; blob refs are digests, so `id` has 64 hex chars.) -/
def ObjectToCacheName (object : ObjectIdentifier) : List Char :=
  let id := removeSlashes (replaceOnceEmpty ("sha256:".toList) object.Ref)
  if object.Kind = ObjectType.blob then
    "blobs/".toList ++ id.take 2 ++ "/".toList ++ id
  else
    object.Registry ++ "/".toList ++ object.Repository ++ "/".toList ++ object.Ref


/-! ## Storage engine (pkg/cache/cache_file.go) -/

/-- The sidecar metadata record `cache.CacheManifest`.  `CacheDate` is an
abstract instant (Go `time.Time`). -/
structure CacheManifest where
  object : ObjectIdentifier
  ContentType : List Char
  DockerContentDigest : List Char
  CacheDate : Nat
  deriving DecidableEq, Repr

/-- Outcome of an `os.Stat` call as the lookup path distinguishes it:
`errors.Is(err, os.ErrNotExist)`, any other error, or success with the
file size. -/
inductive StatResult
  | notExist
  | ioError
  | found (size : Nat)
  deriving DecidableEq, Repr

/-- Metadata of a `cache.FileObject` as returned on a hit (`cache.ObjMeta`). -/
structure FileObjectMeta where
  manifest : CacheManifest
  Path : List Char
  SizeBytes : Nat
  deriving DecidableEq, Repr

/-- The in-memory `cache.FileWriter` value: its directory, object, and the
lazily created temp file (`nil` until the first `Write`). -/
structure TempFile where
  name : List Char
  deriving DecidableEq, Repr

structure FileWriterState where
  cacheDirectory : List Char
  object : ObjectIdentifier
  file : Option TempFile
  deriving DecidableEq, Repr

/-- Model of `FileCache.getManifestOrNilOnMiss`: stat the payload, stat the
sidecar, read and unmarshal the sidecar.  The environment is passed in as
the two stat outcomes, the sidecar read outcome and the unmarshal function
(`encoding/json` is an external library; `parse b = none` models an
`Unmarshal` error). -/
def getManifestOrNilOnMiss (payloadStat sidecarStat : StatResult)
    (readResult : Except Unit (List Nat))
    (parse : List Nat → Option CacheManifest) :
    Except Unit (Option (CacheManifest × Nat)) :=
  match payloadStat with
  | .notExist => .ok none
  | .ioError => .error ()
  | .found size =>
    match sidecarStat with
    | .notExist => .ok none
    | .ioError => .error ()
    | .found _ =>
      match readResult with
      | .error e => .error e
      | .ok bytes =>
        match parse bytes with
        | none => .error ()
        | some m => .ok (some (m, size))

/-- The triple returned by `FileCache.GetCache`: cached reader (or `nil`),
writer (or `nil`), error flag. -/
structure LookupResult where
  cached : Option FileObjectMeta
  writer : Option FileWriterState
  err : Bool
  deriving DecidableEq, Repr

/-- Model of `FileCache.GetCache`: build a fresh writer, derive the key, call
`getManifestOrNilOnMiss`; an error drops both reader and writer, a miss
returns `(nil, writer, nil)`, a hit wraps the manifest in a `FileObject`. -/
def GetCache (cacheDirectory : List Char) (object : ObjectIdentifier)
    (payloadStat sidecarStat : StatResult)
    (readResult : Except Unit (List Nat))
    (parse : List Nat → Option CacheManifest) : LookupResult :=
  let writer : FileWriterState :=
    { cacheDirectory := cacheDirectory, object := object, file := none }
  let key := cacheDirectory ++ "/".toList ++ ObjectToCacheName object
  match getManifestOrNilOnMiss payloadStat sidecarStat readResult parse with
  | .error _ => { cached := none, writer := none, err := true }
  | .ok none => { cached := none, writer := some writer, err := false }
  | .ok (some (m, size)) =>
    { cached := some { manifest := m, Path := key, SizeBytes := size },
      writer := some writer, err := false }

/-! ## Writer commit and abort (pkg/cache/cache_file.go, FileWriter) -/

/-- The cache directory as a filesystem: a map from path to file bytes. -/
def FS : Type := List Char → Option (List Nat)

def fsSet (fs : FS) (k : List Char) (v : List Nat) : FS :=
  fun n => if n = k then some v else fs n

def fsErase (fs : FS) (k : List Char) : FS :=
  fun n => if n = k then none else fs n

/-- The final payload path used by `FileWriter.Close`:
`filepath.Join(cacheDirectory, ObjectToCacheName(object))`. -/
def finalPath (s : FileWriterState) : List Char :=
  s.cacheDirectory ++ "/".toList ++ ObjectToCacheName s.object

/-- Model of `FileWriter.Close(contentType, dockerContentDigest)`: a no-op when no
temp file was ever created; otherwise close the temp file, `MkdirAll`,
rename it onto the final path, and write the sidecar next to it
(`sidecarBytes` stands for the `json.Marshal` output).  Returns the new
filesystem and whether the call returned `nil`.  I/O failures other than
the temp file having vanished are not modelled (the `FS` map cannot fail). -/
def fwClose (s : FileWriterState) (fs : FS) (sidecarBytes : List Nat) :
    FS × Bool :=
  match s.file with
  | none => (fs, true)
  | some tmp =>
    match fs tmp.name with
    | none => (fs, false)
    | some content =>
      let fp := finalPath s
      let fs1 := fsSet (fsErase fs tmp.name) fp content
      (fsSet fs1 (fp ++ ".json".toList) sidecarBytes, true)

/-- Model of `FileWriter.Cleanup`: if a temp file was created, close it and remove
its name (the `os.Remove` error is discarded); the in-memory writer value
is not mutated. -/
def fwCleanup (s : FileWriterState) (fs : FS) : FS :=
  match s.file with
  | none => fs
  | some tmp => fsErase fs tmp.name

/-! ## Streaming fan-out (service.readIntoWriters, pkg/service/service.go) -/

/-- The error value accompanying one `src.Read` call: `nil`, `io.EOF`, or
any other (fatal) read error. -/
inductive ReadErr
  | ok
  | eof
  | bad
  deriving DecidableEq, Repr

/-- One `Read` call on the upstream body: the bytes placed in the buffer
and the returned error. -/
structure ReadEvent where
  data : List Nat
  rerr : ReadErr
  deriving DecidableEq, Repr

/-- Behaviour of one `Write` call on a sink: full write, short write
(`written < read`, turned into `io.ErrShortWrite`), or a write error. -/
inductive WriteRes
  | full
  | short
  | fail
  deriving DecidableEq, Repr

/-- A sink of the fan-out: the schedule of its future `Write` results (an
exhausted schedule means every further write succeeds — the in-memory
hasher and buffer sinks use `[]`) and the bytes it has absorbed. -/
structure Sink where
  sched : List WriteRes
  buf : List Nat
  deriving DecidableEq, Repr

instance : Inhabited Sink := ⟨{ sched := [], buf := [] }⟩

/-- One `v.Write(buf[:read])` call: on success the sink absorbs the bytes,
a short write or error aborts (`readIntoWriters` returns the wrapped
error). -/
def sinkWrite (s : Sink) (d : List Nat) : Except Unit Sink :=
  match s.sched with
  | [] => .ok { s with buf := s.buf ++ d }
  | .full :: rest => .ok { sched := rest, buf := s.buf ++ d }
  | .short :: _ => .error ()
  | .fail :: _ => .error ()

/-- The `for _, v := range dst` loop body of `readIntoWriters`. -/
def writeAll : List Sink → List Nat → Except Unit (List Sink)
  | [], _ => .ok []
  | s :: rest, d =>
    match sinkWrite s d with
    | .error e => .error e
    | .ok s2 =>
      match writeAll rest d with
      | .error e => .error e
      | .ok rest2 => .ok (s2 :: rest2)

/-- Model of `service.readIntoWriters`: repeatedly read; a non-EOF read error
returns at once (before writing the bytes of that call); bytes of a
positive read go to every sink in order, aborting on the first failed or
short write; EOF (after writing its bytes) ends the copy with `nil`.  The
body is modelled as the finite list of `Read` outcomes; an exhausted list
stands for a body that has ended. -/
def readIntoWriters : List ReadEvent → List Sink → Except Unit (List Sink)
  | [], sinks => .ok sinks
  | ev :: rest, sinks =>
    if ev.rerr = ReadErr.bad then .error ()
    else
      match (if ev.data = [] then .ok sinks else writeAll sinks ev.data) with
      | .error e => .error e
      | .ok sinks2 =>
        if ev.rerr = ReadErr.eof then .ok sinks2
        else readIntoWriters rest sinks2

/-- The bytes of the body that the loop consumes, in read order: all data
up to and including the EOF read, nothing once a fatal read error occurs
(the bytes of the failing call are discarded by the early return). -/
def consumed : List ReadEvent → List Nat
  | [] => []
  | ev :: rest =>
    if ev.rerr = ReadErr.bad then []
    else if ev.rerr = ReadErr.eof then ev.data
    else ev.data ++ consumed rest

/-- Whether the read loop runs into a fatal (non-EOF) read error. -/
def hitsReadError : List ReadEvent → Bool
  | [] => false
  | ev :: rest =>
    if ev.rerr = ReadErr.bad then true
    else if ev.rerr = ReadErr.eof then false
    else hitsReadError rest

/-! ## The miss tail of CacheService.GetObject (pkg/service/service.go) -/

/-- The upstream response as the engine sees it: status, the two headers
it uses, and the body read outcomes. -/
structure UpstreamResponse where
  status : Nat
  contentTypeHeader : List Char
  dockerContentDigestHeader : List Char
  body : List ReadEvent
  deriving DecidableEq, Repr

/-- Result of the post-response part of `GetObject` (lines building the
writer fan-out through the `cacheWriter.Close` call).  `commit` carries
the payload bytes and `Close(contentType, dockerContentDigest)` arguments
when files are produced (`Close` is a no-op when the writer was never
written to). -/
structure MissOutcome where
  streamErr : Bool
  closeInvoked : Bool
  digestMismatch : Bool
  commit : Option (List Nat × List Char × List Char)
  cacheSink : Option Sink
  deriving DecidableEq, Repr

/-- The sink list of the fan-out, mirroring lines 161-178: when caching,
the cache writer then the SHA-256 hasher then (for manifests) the echo
buffer; when not a HEAD request, the client response writer last. -/
def missWriters (caching : Bool) (kind : ObjectType) (isHead : Bool)
    (cacheSched clientSched : List WriteRes) : List Sink :=
  (if caching then
    [{ sched := cacheSched, buf := [] }, { sched := [], buf := [] }] ++
      (if kind = ObjectType.manifest then [{ sched := [], buf := [] }] else [])
  else []) ++
  (if isHead then [] else [{ sched := clientSched, buf := [] }])

/-- The digest-validation-and-`Close` step of `GetObject` (lines 186-206)
run on the sinks the stream produced: on the cache path, lower-case the
`Docker-Content-Digest` header, fall back to `ref` when it is empty,
compare a `sha256:`-shaped expected digest against `"sha256:" +
lower(hex(sha.Sum))` of the hashed bytes (sink 1), and on a match call
`Close(Content-Type header, cd)`; the cache writer (sink 0) produces files
exactly when it was written to. -/
def commitDecision (caching : Bool) (ref : List Char)
    (contentTypeHeader dcdHeader : List Char)
    (hashHex : List Nat → List Char) (sinks2 : List Sink) : MissOutcome :=
  if caching then
    let bufs := sinks2.map Sink.buf
    let cacheBuf := bufs.getD 0 []
    let hashedBytes := bufs.getD 1 []
    let cd := toLowerStr dcdHeader
    let digest := if cd = [] then ref else cd
    let shaHex := "sha256:".toList ++ toLowerStr (hashHex hashedBytes)
    if hasPrefixStr ("sha256:".toList) digest ∧ shaHex ≠ digest then
      { streamErr := false, closeInvoked := false, digestMismatch := true,
        commit := none, cacheSink := some (sinks2.getD 0 default) }
    else
      { streamErr := false, closeInvoked := true, digestMismatch := false,
        commit :=
          if cacheBuf = [] then none
          else some (cacheBuf, contentTypeHeader, cd),
        cacheSink := some (sinks2.getD 0 default) }
  else
    { streamErr := false, closeInvoked := false, digestMismatch := false,
      commit := none, cacheSink := none }

/-- The tail of `CacheService.GetObject` after the upstream response
arrived, for a request that reached the upstream fetch: force the skip
reason on a non-2xx status, build the fan-out, stream, and on a clean
non-skipped stream validate the digest and apply `commitDecision`.
`hashHex` is `hex.EncodeToString(sha.Sum(nil))` as a function of the
hashed bytes (crypto/sha256 and encoding/hex are external libraries; Go's
hex output is lowercase). -/
def getObjectTail (skipReason0 : List Char) (isHead : Bool)
    (kind : ObjectType) (ref : List Char) (resp : UpstreamResponse)
    (hashHex : List Nat → List Char)
    (cacheSched clientSched : List WriteRes) : MissOutcome :=
  let skipReason :=
    if resp.status / 100 = 2 then skipReason0
    else "non-2xx upstream response".toList
  let caching := skipReason = []
  let writers := missWriters caching kind isHead cacheSched clientSched
  match readIntoWriters resp.body writers with
  | .error _ =>
    { streamErr := true, closeInvoked := false, digestMismatch := false,
      commit := none, cacheSink := none }
  | .ok sinks2 =>
    commitDecision caching ref resp.contentTypeHeader
      resp.dockerContentDigestHeader hashHex sinks2

/-! ## The hit branch of CacheService.GetObject -/

/-- What the GET hit branch does after the metadata headers are set:
`reader, _ := cached.GetReader()` discards the open error, `defer
reader.Close()` and `readIntoWriters([w], reader)` then run on the
(possibly nil) reader.  `openResult` is `os.Open`'s outcome; on failure
the interface value wraps a nil `*os.File`. -/
structure HitServe where
  errorResponse : Bool
  wentUpstream : Bool
  usedNilReader : Bool
  clientBytes : List Nat
  deriving DecidableEq, Repr

def serveHitGet (openResult : Except Unit (List Nat))
    (clientSched : List WriteRes) : HitServe :=
  match openResult with
  | .error _ =>
    -- the discarded error: Close and Read are invoked on the nil reader,
    -- both return ErrInvalid, the body copy stops and the handler returns
    { errorResponse := false, wentUpstream := false,
      usedNilReader := true, clientBytes := [] }
  | .ok bytes =>
    match readIntoWriters [{ data := bytes, rerr := ReadErr.eof }]
        [{ sched := clientSched, buf := [] }] with
    | .error _ =>
      { errorResponse := false, wentUpstream := false,
        usedNilReader := false, clientBytes := [] }
    | .ok sinks2 =>
      { errorResponse := false, wentUpstream := false,
        usedNilReader := false, clientBytes := (sinks2.map Sink.buf).getD 0 [] }

/-! ## Credential substitution (CacheService.reqWithCreds) -/

structure HttpResponse where
  status : Nat
  wwwAuthenticate : List Char
  host : List Char
  deriving DecidableEq, Repr

structure RegistryCreds where
  Username : List Char
  Password : List Char
  deriving DecidableEq, Repr

/-- Model of `CacheService.reqWithCreds`: issue the request; on a 401 with no
client `Authorization` and configured credentials for the host, run the
Basic or Bearer exchange and retry once.  External effects are passed in:
`first` and `retry` are the two `request` outcomes, `tokenHTTP` the token
endpoint request, `bodyRead` the `io.ReadAll` of its body, and `tokenOf`
the `token` entry of the JSON body parsed as a string map (`[]` when
absent, empty, or of non-string type).  A `WWW-Authenticate` value starts
with at most one of `Basic` and `Bearer`, so the two sequential `if`
blocks of the source are an if/else chain here. -/
def reqWithCreds (first : Except Unit HttpResponse) (authz : List Char)
    (lookupCreds : List Char → Option RegistryCreds)
    (tokenHTTP : Except Unit Unit) (bodyRead : Except Unit (List Nat))
    (tokenOf : List Nat → List Char)
    (retry : Except Unit HttpResponse) : Except Unit HttpResponse :=
  match first with
  | .error e => .error e
  | .ok resp =>
    if resp.status = 401 ∧ authz = [] then
      match lookupCreds resp.host with
      | none => .ok resp
      | some _ =>
        if hasPrefixStr ("Basic".toList) resp.wwwAuthenticate then retry
        else if hasPrefixStr ("Bearer".toList) resp.wwwAuthenticate then
          match tokenHTTP with
          | .error e => .error e
          | .ok _ =>
            match bodyRead with
            | .error e => .error e
            | .ok body =>
              if tokenOf body = [] then .error ()
              else retry
        else .ok resp
    else .ok resp

/-- What `GetObject` writes for the upstream phase (lines 144-154): a
`reqWithCreds` error produces a 500, otherwise the upstream status code is
copied to the client. -/
def respondStatus (r : Except Unit HttpResponse) : Nat :=
  match r with
  | .error _ => 500
  | .ok resp => resp.status

/-! ## Skip policy (CacheService.getSkipReason) -/

/-- The skip-policy configuration of `CacheService`: `SkipTags` is a
nilable compiled regex (modelled by its match predicate), and
`PrivateRegistries` a nilable set; `SkipImages` membership on a nil Go map
is simply false, so it needs no option. -/
structure SkipConfig where
  cacheManifests : Bool
  skipTags : Option (List Char → Bool)
  privateRegistries : Option (List Char → Bool)
  skipImages : List Char → Bool

/-- Model of `CacheService.getSkipReason`: blobs are never skipped; for manifests
each of the four checks overwrites `res` in turn (the last firing check
wins), starting from the empty string. -/
def getSkipReason (cfg : SkipConfig) (o : ObjectIdentifier) : List Char :=
  if o.Kind = ObjectType.manifest then
    let res : List Char := []
    let res := if ¬cfg.cacheManifests then "manifests cache disabled".toList else res
    let res :=
      match cfg.skipTags with
      | some isMatch => if isMatch o.Ref then "tag match skip regex".toList else res
      | none => res
    let res :=
      match cfg.privateRegistries with
      | some isPrivate => if isPrivate o.Registry then "private registry".toList else res
      | none => res
    let res := if cfg.skipImages o.Repository then "image on ignore list".toList else res
    res
  else []

/-! ## Router (pkg/mux)

Modelled from the spec: the canonical router of `pkg/mux` is missing from
the sources at hand — the only `mux.go` present predates the fork (it
imports the old project path, pairs with a `GetManifest`/`GetBlob` service
interface the canonical `pkg/service` does not offer, and its `NewRouter`
takes one argument where the canonical `main.go` passes two).  Spec §4.5:
requests on the two `/v2/...` routes require the `ns` query parameter
(400 when absent), known aliases are substituted
(`docker.io → registry-1.docker.io`), and "Methods other than GET/HEAD:
400". -/

inductive RouterAction
  | respond (status : Nat)
  | dispatch (o : ObjectIdentifier) (isHead : Bool)
  deriving DecidableEq, Repr

/-- Modelled from the spec: alias substitution of the `ns` parameter. -/
def normalizeNs (ns : List Char) : List Char :=
  if ns = "docker.io".toList then "registry-1.docker.io".toList else ns

/-- Modelled from the spec: dispatch of a request whose path matched
`/v2/{repo}/manifests/{ref}` or `/v2/{repo}/blobs/{digest}`. -/
def routeV2 (method : List Char) (repo ref : List Char) (kind : ObjectType)
    (ns : List Char) : RouterAction :=
  if ns = [] then RouterAction.respond 400
  else if method = "GET".toList ∨ method = "HEAD".toList then
    RouterAction.dispatch
      { Registry := normalizeNs ns, Repository := repo, Ref := ref, Kind := kind }
      (method = "HEAD".toList)
  else RouterAction.respond 400


/-! ## Theorems -/

theorem replaceOnceEmpty_of_isPrefixOf (pat s : List Char)
    (h : List.isPrefixOf pat s = true) :
    replaceOnceEmpty pat s = s.drop pat.length := by
  cases s with
  | nil =>
    have : pat = [] := by
      simpa [List.isPrefixOf_iff_prefix] using h
    simp [replaceOnceEmpty, this]
  | cons c rest =>
    simp [replaceOnceEmpty, h]

/-- C1: the blob storage key is a pure function of `Ref` alone: for a blob
ref of digest shape `sha256:<hex>` (no slash in `<hex>`, at least two
chars) the key is `blobs/<hex[0:2]>/<hex>`, and two identifiers with the
same ref — any registries and repositories — get the same blob key. -/
theorem blob_key_content_addressed
    (o : ObjectIdentifier) (hex : List Char)
    (hb : o.Kind = ObjectType.blob)
    (href : o.Ref = "sha256:".toList ++ hex)
    (hslash : ∀ c ∈ hex, c ≠ '/') (hlen : 2 ≤ hex.length) :
    ObjectToCacheName o =
      "blobs/".toList ++ hex.take 2 ++ "/".toList ++ hex ∧
    (∀ o2 : ObjectIdentifier, o2.Kind = ObjectType.blob → o2.Ref = o.Ref →
      ObjectToCacheName o2 = ObjectToCacheName o) := by
  have hpre : List.isPrefixOf ("sha256:".toList) o.Ref = true := by
    rw [href]
    simp [List.isPrefixOf_iff_prefix]
  have hid : removeSlashes (replaceOnceEmpty ("sha256:".toList) o.Ref) = hex := by
    rw [replaceOnceEmpty_of_isPrefixOf _ _ hpre, href]
    rw [List.drop_append_of_le_length (by simp)]
    simp [removeSlashes, List.filter_eq_self]
    intro c hc
    simpa using hslash c hc
  constructor
  · rw [ObjectToCacheName]
    have hid2 : removeSlashes (replaceOnceEmpty (['s','h','a','2','5','6',':']) o.Ref) = hex := by
      simpa using hid
    simp [hb, hid2]
  · intro o2 hb2 href2
    rw [ObjectToCacheName, ObjectToCacheName]
    simp [hb, hb2, href2]

/-- Witness for C1 at a concrete blob identifier. -/
theorem blob_key_content_addressed_witness :
    ObjectToCacheName
      { Registry := "registry-1.docker.io".toList,
        Repository := "library/alpine".toList,
        Ref := "sha256:abcd".toList,
        Kind := ObjectType.blob } =
      "blobs/".toList ++ ("abcd".toList).take 2 ++ "/".toList ++ "abcd".toList := by
  have h := blob_key_content_addressed
    { Registry := "registry-1.docker.io".toList,
      Repository := "library/alpine".toList,
      Ref := "sha256:abcd".toList,
      Kind := ObjectType.blob }
    ("abcd".toList) rfl (by decide) (by decide) (by decide)
  exact h.1

/-- C2 counterexample input: both files exist and the sidecar read
succeeds, but the sidecar does not parse.  The code returns the error
triple `(nil, nil, err)` — not a miss with a usable writer. -/
theorem getCache_parse_failure_is_error_not_miss :
    GetCache ("/tmp/data".toList)
      { Registry := "registry.k8s.io".toList,
        Repository := "kube-scheduler".toList,
        Ref := "v1.29.1".toList,
        Kind := ObjectType.manifest }
      (StatResult.found 6) (StatResult.found 3) (Except.ok [123])
      (fun _ => none) =
      { cached := none, writer := none, err := true } := by
  rfl

/-- C2 (amended): `GetCache` reports a hit iff both files exist and the
sidecar reads and parses; absence of either file (the `ErrNotExist`
branches) is a miss with a usable writer and no error; any other state —
an I/O failure of either stat, a sidecar read failure, or a sidecar that
exists but fails to parse — is reported as an error, dropping the writer. -/
theorem getCache_presence_rule (cacheDirectory : List Char)
    (object : ObjectIdentifier)
    (payloadStat sidecarStat : StatResult)
    (readResult : Except Unit (List Nat))
    (parse : List Nat → Option CacheManifest) :
    let r := GetCache cacheDirectory object payloadStat sidecarStat readResult parse
    ((r.cached.isSome) ↔
      ((∃ n, payloadStat = .found n) ∧ (∃ n, sidecarStat = .found n) ∧
        (∃ b m, readResult = .ok b ∧ parse b = some m))) ∧
    ((r.cached = none ∧ r.writer.isSome ∧ r.err = false) ↔
      (payloadStat = .notExist ∨
        ((∃ n, payloadStat = .found n) ∧ sidecarStat = .notExist))) ∧
    (r.err = true ↔
      (payloadStat = .ioError ∨
        ((∃ n, payloadStat = .found n) ∧
          (sidecarStat = .ioError ∨
            ((∃ n, sidecarStat = .found n) ∧
              ((∃ e, readResult = .error e) ∨
                (∃ b, readResult = .ok b ∧ parse b = none))))))) ∧
    (r.err = true → r.writer = none) := by
  cases payloadStat <;> cases sidecarStat <;>
    rcases readResult with e | b <;>
    simp [GetCache, getManifestOrNilOnMiss] <;>
    rcases hp : parse b with _ | m <;>
    simp [GetCache, getManifestOrNilOnMiss, hp]

/-- C8: `Cleanup` removes at most the writer's temp-file name (every other
path is untouched, and nothing at all happens when no temp file was
created), it is idempotent, and after a successful `Close` — whose temp
name differs from the final payload and sidecar paths, as it always does
since the key contains a `/` and the temp name does not — the renamed
payload and its sidecar survive `Cleanup` unchanged. -/
theorem cleanup_frame_and_idempotent
    (s : FileWriterState) (fs : FS) (sidecarBytes : List Nat)
    (tmp : TempFile) (hfile : s.file = some tmp)
    (content : List Nat) (hcontent : fs tmp.name = some content)
    (hne1 : tmp.name ≠ finalPath s)
    (hne2 : tmp.name ≠ finalPath s ++ ".json".toList) :
    (∀ n, n ≠ tmp.name → fwCleanup s fs n = fs n) ∧
    (fwCleanup s fs tmp.name = none) ∧
    (∀ s2 fs2, s2.file = none → ∀ n, fwCleanup s2 fs2 n = fs2 n) ∧
    (∀ n, fwCleanup s (fwCleanup s fs) n = fwCleanup s fs n) ∧
    ((fwClose s fs sidecarBytes).2 = true ∧
      fwCleanup s (fwClose s fs sidecarBytes).1 (finalPath s) = some content ∧
      fwCleanup s (fwClose s fs sidecarBytes).1 (finalPath s ++ ".json".toList) =
        some sidecarBytes) := by
  refine ⟨?_, ?_, ?_, ?_, ?_, ?_, ?_⟩
  · intro n hn
    simp [fwCleanup, hfile, fsErase, hn]
  · simp [fwCleanup, hfile, fsErase]
  · intro s2 fs2 h2 n
    simp [fwCleanup, h2]
  · intro n
    by_cases hn : n = tmp.name <;> simp [fwCleanup, hfile, fsErase, hn]
  · simp [fwClose, hfile, hcontent]
  · simp [fwClose, fwCleanup, hfile, hcontent, fsSet, fsErase,
      hne1.symm, hne2]
  · have hne2x : ¬(finalPath s ++ ['.', 'j', 's', 'o', 'n'] = tmp.name) := by
      intro h
      exact hne2 (by simpa using h.symm)
    simp [fwClose, fwCleanup, hfile, hcontent, fsSet, fsErase, hne2x]

/-- Witness for C8 at a concrete writer, temp file and filesystem. -/
theorem cleanup_frame_and_idempotent_witness :
    (fwCleanup
      { cacheDirectory := "/tmp/data".toList,
        object := { Registry := "registry.k8s.io".toList,
                    Repository := "kube-scheduler".toList,
                    Ref := "v1.29.1".toList,
                    Kind := ObjectType.manifest },
        file := some { name := "/tmp/data/v1.29.1123456".toList } }
      (fsSet (fun _ => none) ("/tmp/data/v1.29.1123456".toList) [55])
      ("/tmp/data/v1.29.1123456".toList)) = none := by
  have h := cleanup_frame_and_idempotent
    { cacheDirectory := "/tmp/data".toList,
      object := { Registry := "registry.k8s.io".toList,
                  Repository := "kube-scheduler".toList,
                  Ref := "v1.29.1".toList,
                  Kind := ObjectType.manifest },
      file := some { name := "/tmp/data/v1.29.1123456".toList } }
    (fsSet (fun _ => none) ("/tmp/data/v1.29.1123456".toList) [55])
    [99]
    { name := "/tmp/data/v1.29.1123456".toList }
    rfl [55] (by simp [fsSet]) (by decide) (by decide)
  exact h.2.1

theorem sinkWrite_buf (s s2 : Sink) (d : List Nat)
    (h : sinkWrite s d = .ok s2) : s2.buf = s.buf ++ d := by
  cases hs : s.sched with
  | nil =>
    simp [sinkWrite, hs] at h
    rw [← h]
  | cons r rest =>
    cases r <;> simp [sinkWrite, hs] at h
    rw [← h]

theorem writeAll_map_buf (d : List Nat) :
    ∀ sinks sinks2 : List Sink, writeAll sinks d = .ok sinks2 →
      sinks2.map Sink.buf = sinks.map fun s => s.buf ++ d := by
  intro sinks
  induction sinks with
  | nil =>
    intro sinks2 h
    simp [writeAll] at h
    simp [h]
  | cons s rest ih =>
    intro sinks2 h
    cases hw : sinkWrite s d with
    | error e => simp [writeAll, hw] at h
    | ok s2 =>
      cases hr : writeAll rest d with
      | error e => simp [writeAll, hw, hr] at h
      | ok rest2 =>
        simp [writeAll, hw, hr] at h
        rw [← h]
        simp [sinkWrite_buf s s2 d hw, ih rest2 hr]

theorem readIntoWriters_map_buf :
    ∀ (evs : List ReadEvent) (sinks sinks2 : List Sink),
      readIntoWriters evs sinks = .ok sinks2 →
      sinks2.map Sink.buf = sinks.map fun s => s.buf ++ consumed evs := by
  intro evs
  induction evs with
  | nil =>
    intro sinks sinks2 h
    simp [readIntoWriters] at h
    simp [← h, consumed]
  | cons ev rest ih =>
    intro sinks sinks2 h
    rw [readIntoWriters] at h
    by_cases hbad : ev.rerr = ReadErr.bad
    · simp [hbad] at h
    · rw [if_neg hbad] at h
      rcases hstep : (if ev.data = [] then Except.ok sinks else writeAll sinks ev.data)
        with e | sinksW
      · rw [hstep] at h
        simp at h
      · rw [hstep] at h
        simp only [] at h
        have hbufW : sinksW.map Sink.buf = sinks.map fun s => s.buf ++ ev.data := by
          by_cases hd : ev.data = []
          · rw [if_pos hd] at hstep
            simp at hstep
            simp [← hstep, hd]
          · rw [if_neg hd] at hstep
            exact writeAll_map_buf ev.data sinks sinksW hstep
        by_cases heof : ev.rerr = ReadErr.eof
        · rw [if_pos heof] at h
          simp at h
          rw [← h, hbufW, consumed, if_neg hbad, if_pos heof]
        · rw [if_neg heof] at h
          have h2 := ih sinksW sinks2 h
          rw [h2]
          have hcomp : List.map (fun s => s.buf ++ consumed rest) sinksW =
              List.map (fun b => b ++ consumed rest) (List.map Sink.buf sinksW) := by
            rw [List.map_map]
            rfl
          rw [hcomp, hbufW, List.map_map, consumed, if_neg hbad, if_neg heof]
          simp [Function.comp, List.append_assoc]

theorem hitsReadError_run_error :
    ∀ (evs : List ReadEvent) (sinks : List Sink),
      hitsReadError evs = true →
      readIntoWriters evs sinks = .error () := by
  intro evs
  induction evs with
  | nil =>
    intro sinks h
    simp [hitsReadError] at h
  | cons ev rest ih =>
    intro sinks h
    rw [hitsReadError] at h
    rw [readIntoWriters]
    by_cases hbad : ev.rerr = ReadErr.bad
    · simp [hbad]
    · rw [if_neg hbad] at h ⊢
      by_cases heof : ev.rerr = ReadErr.eof
      · simp [heof] at h
      · rw [if_neg heof] at h
        rcases hstep : (if ev.data = [] then Except.ok sinks else writeAll sinks ev.data)
          with e | sinksW
        · cases e
          rfl
        · simp only []
          rw [if_neg heof]
          exact ih sinksW h

theorem empty_data_run (evs : List ReadEvent)
    (hempty : ∀ ev ∈ evs, ev.data = []) :
    ∀ sinks : List Sink,
      readIntoWriters evs sinks = .ok sinks ∨
      readIntoWriters evs sinks = .error () := by
  induction evs with
  | nil =>
    intro sinks
    left
    rfl
  | cons ev rest ih =>
    intro sinks
    rw [readIntoWriters]
    by_cases hbad : ev.rerr = ReadErr.bad
    · right
      simp [hbad]
    · rw [if_neg hbad, if_pos (hempty ev (by simp))]
      simp only []
      by_cases heof : ev.rerr = ReadErr.eof
      · rw [if_pos heof]
        left
        rfl
      · rw [if_neg heof]
        exact ih (fun e he => hempty e (by simp [he])) sinks

theorem consumed_of_empty_data (evs : List ReadEvent)
    (hempty : ∀ ev ∈ evs, ev.data = []) : consumed evs = [] := by
  induction evs with
  | nil => rfl
  | cons ev rest ih =>
    rw [consumed]
    by_cases hbad : ev.rerr = ReadErr.bad
    · simp [hbad]
    · rw [if_neg hbad]
      by_cases heof : ev.rerr = ReadErr.eof
      · rw [if_pos heof]
        exact hempty ev (by simp)
      · rw [if_neg heof, hempty ev (by simp), ih (fun e he => hempty e (by simp [he]))]
        rfl

theorem commitDecision_streamErr (caching : Bool) (ref ct dcd : List Char)
    (hashHex : List Nat → List Char) (sinks2 : List Sink) :
    (commitDecision caching ref ct dcd hashHex sinks2).streamErr = false := by
  simp only [commitDecision]
  split
  · split <;> split <;> rfl
  · rfl

theorem commitDecision_commit_eq (caching : Bool) (ref ct dcd : List Char)
    (hashHex : List Nat → List Char) (sinks2 : List Sink)
    (p : List Nat) (ctx dx : List Char)
    (h : (commitDecision caching ref ct dcd hashHex sinks2).commit =
      some (p, ctx, dx)) :
    caching = true ∧ p = (sinks2.map Sink.buf).getD 0 [] ∧
      ctx = ct ∧ dx = toLowerStr dcd := by
  simp only [commitDecision] at h
  split at h
  · rename_i hcache
    split at h <;> split at h <;> try (split at h)
    all_goals simp at h
    all_goals
      refine ⟨hcache, ?_, h.2.1.symm, h.2.2.symm⟩
      simp only [List.getD_eq_getElem?_getD, List.getElem?_map]
      exact h.1.symm
  · simp at h

/-- C4: a committed payload is, byte for byte, the concatenation in read
order of the chunks read from the upstream body; when the streaming loop
hits a read error the stream is aborted and nothing is committed, and
whenever the loop aborts — read error, write error or short write on any
sink — nothing is committed (`GetObject` returns before `Close`). -/
theorem commit_payload_byte_exact
    (skipReason0 : List Char) (isHead : Bool) (kind : ObjectType)
    (ref : List Char) (resp : UpstreamResponse)
    (hashHex : List Nat → List Char) (cacheSched clientSched : List WriteRes) :
    ((getObjectTail skipReason0 isHead kind ref resp hashHex cacheSched
        clientSched).streamErr = true →
      (getObjectTail skipReason0 isHead kind ref resp hashHex cacheSched
        clientSched).commit = none) ∧
    (hitsReadError resp.body = true →
      (getObjectTail skipReason0 isHead kind ref resp hashHex cacheSched
        clientSched).streamErr = true ∧
      (getObjectTail skipReason0 isHead kind ref resp hashHex cacheSched
        clientSched).commit = none) ∧
    (∀ payload ct dcd,
      (getObjectTail skipReason0 isHead kind ref resp hashHex cacheSched
        clientSched).commit = some (payload, ct, dcd) →
      payload = consumed resp.body) := by
  refine ⟨?_, ?_, ?_⟩
  · intro h
    revert h
    simp only [getObjectTail]
    split
    · intro _
      rfl
    · intro h
      rw [commitDecision_streamErr] at h
      cases h
  · intro h
    simp only [getObjectTail]
    rw [hitsReadError_run_error resp.body _ h]
    exact ⟨rfl, rfl⟩
  · intro payload ct dcd h
    revert h
    simp only [getObjectTail]
    split
    · intro h
      simp at h
    · rename_i sinks2 heq
      intro h
      obtain ⟨hcache, hpay, -, -⟩ :=
        commitDecision_commit_eq _ _ _ _ _ _ _ _ _ h
      rw [hcache] at heq
      have hbufs := readIntoWriters_map_buf resp.body _ sinks2 heq
      rw [hpay, hbufs]
      simp [missWriters]

/-- Witness for C4 at a one-chunk body with no digest header: the commit
payload equals the consumed body bytes. -/
theorem commit_payload_byte_exact_witness :
    [7, 8] = consumed [{ data := [7, 8], rerr := ReadErr.eof }] := by
  exact (commit_payload_byte_exact [] false ObjectType.blob ("v1".toList)
    { status := 200, contentTypeHeader := "application/json".toList,
      dockerContentDigestHeader := [],
      body := [{ data := [7, 8], rerr := ReadErr.eof }] }
    (fun _ => []) [] []).2.2 [7, 8] ("application/json".toList) [] rfl

theorem decide_nil_eq : (decide (([] : List Char) = [])) = true := rfl

theorem commitDecision_true_eq (ref ct dcd : List Char)
    (hashHex : List Nat → List Char) (sinks2 : List Sink) :
    commitDecision true ref ct dcd hashHex sinks2 =
      (if hasPrefixStr ("sha256:".toList)
            (if toLowerStr dcd = [] then ref else toLowerStr dcd) = true ∧
          "sha256:".toList ++ toLowerStr (hashHex ((sinks2.map Sink.buf).getD 1 [])) ≠
            (if toLowerStr dcd = [] then ref else toLowerStr dcd) then
        { streamErr := false, closeInvoked := false, digestMismatch := true,
          commit := none, cacheSink := some (sinks2.getD 0 default) }
      else
        { streamErr := false, closeInvoked := true, digestMismatch := false,
          commit := if (sinks2.map Sink.buf).getD 0 [] = [] then none
            else some ((sinks2.map Sink.buf).getD 0 [], ct, toLowerStr dcd),
          cacheSink := some (sinks2.getD 0 default) }) := rfl

/-- C3 counterexample: upstream answered 200 with
`Docker-Content-Digest: MD5:AB`; the expected digest does not begin with
`sha256:`, so the object is committed — but `Close` receives the
lowercased header value `md5:ab`, not the upstream header value `MD5:AB`
that the claim's final clause names. -/
theorem commit_metadata_counterexample :
    (getObjectTail [] false ObjectType.blob ("v1".toList)
      { status := 200, contentTypeHeader := "ct".toList,
        dockerContentDigestHeader := "MD5:AB".toList,
        body := [{ data := [1], rerr := ReadErr.eof }] }
      (fun _ => "aa".toList) [] []).commit =
      some ([1], "ct".toList, "md5:ab".toList) ∧
    "md5:ab".toList ≠ "MD5:AB".toList := by
  exact ⟨rfl, by decide⟩

/-- C3 (amended): on a non-skipped miss whose body streamed cleanly, the
writer is closed (committed) iff the expected digest — the lowercased
upstream `Docker-Content-Digest`, or the request `ref` when that header is
empty — does not begin with `sha256:` or equals `"sha256:"` plus the
lowercase hex SHA-256 of the streamed bytes; on a mismatch nothing is
committed; and a committed object carries the upstream `Content-Type` and
the **lowercased** `Docker-Content-Digest` header value. -/
theorem digest_gate_commits
    (skipReason0 : List Char) (isHead : Bool) (kind : ObjectType)
    (ref : List Char) (resp : UpstreamResponse)
    (hashHex : List Nat → List Char) (cacheSched clientSched : List WriteRes)
    (hskip : skipReason0 = []) (h2 : resp.status / 100 = 2)
    (hok : (getObjectTail skipReason0 isHead kind ref resp hashHex cacheSched
      clientSched).streamErr = false) :
    ((getObjectTail skipReason0 isHead kind ref resp hashHex cacheSched
        clientSched).closeInvoked = true ↔
      (hasPrefixStr ("sha256:".toList)
          (if toLowerStr resp.dockerContentDigestHeader = [] then ref
            else toLowerStr resp.dockerContentDigestHeader) = false ∨
        "sha256:".toList ++ toLowerStr (hashHex (consumed resp.body)) =
          (if toLowerStr resp.dockerContentDigestHeader = [] then ref
            else toLowerStr resp.dockerContentDigestHeader))) ∧
    ((getObjectTail skipReason0 isHead kind ref resp hashHex cacheSched
        clientSched).closeInvoked = false →
      (getObjectTail skipReason0 isHead kind ref resp hashHex cacheSched
        clientSched).commit = none) ∧
    (∀ p ctx dx,
      (getObjectTail skipReason0 isHead kind ref resp hashHex cacheSched
        clientSched).commit = some (p, ctx, dx) →
      ctx = resp.contentTypeHeader ∧
        dx = toLowerStr resp.dockerContentDigestHeader) := by
  subst hskip
  have hsr : (if resp.status / 100 = 2 then ([] : List Char)
      else "non-2xx upstream response".toList) = [] := if_pos h2
  revert hok
  simp only [getObjectTail, hsr, decide_nil_eq, decide_True]
  rcases hrun : readIntoWriters resp.body
      (missWriters true kind isHead cacheSched clientSched) with e | sinks2
  · intro hok
    simp at hok
  · intro _
    have hbufs := readIntoWriters_map_buf resp.body _ sinks2 hrun
    have hhash : (sinks2.map Sink.buf).getD 1 [] = consumed resp.body := by
      rw [hbufs]
      simp [missWriters]
    simp only [commitDecision_true_eq, hhash]
    by_cases hcd : toLowerStr resp.dockerContentDigestHeader = []
    · rw [if_pos hcd]
      by_cases hcond : (hasPrefixStr ("sha256:".toList) ref = true ∧
        "sha256:".toList ++ toLowerStr (hashHex (consumed resp.body)) ≠ ref)
      · rw [if_pos hcond]
        refine ⟨?_, fun _ => rfl, fun p ctx dx h => by cases h⟩
        simp only [Bool.false_eq_true, false_iff]
        intro hor
        rcases hor with h1 | h1
        · rw [hcond.1] at h1
          cases h1
        · exact hcond.2 h1
      · rw [if_neg hcond]
        rw [not_and_or] at hcond
        refine ⟨⟨fun _ => ?_, fun _ => rfl⟩,
          ⟨fun h => by simp at h, fun p ctx dx h => ?_⟩⟩
        · rcases hcond with h1 | h1
          · exact Or.inl (by simpa using h1)
          · exact Or.inr (by simpa using h1)
        · split at h
          · cases h
          · simp at h
            exact ⟨h.2.1.symm, h.2.2.symm⟩
    · rw [if_neg hcd]
      by_cases hcond : (hasPrefixStr ("sha256:".toList)
          (toLowerStr resp.dockerContentDigestHeader) = true ∧
        "sha256:".toList ++ toLowerStr (hashHex (consumed resp.body)) ≠
          toLowerStr resp.dockerContentDigestHeader)
      · rw [if_pos hcond]
        refine ⟨?_, fun _ => rfl, fun p ctx dx h => by cases h⟩
        simp only [Bool.false_eq_true, false_iff]
        intro hor
        rcases hor with h1 | h1
        · rw [hcond.1] at h1
          cases h1
        · exact hcond.2 h1
      · rw [if_neg hcond]
        rw [not_and_or] at hcond
        refine ⟨⟨fun _ => ?_, fun _ => rfl⟩,
          ⟨fun h => by simp at h, fun p ctx dx h => ?_⟩⟩
        · rcases hcond with h1 | h1
          · exact Or.inl (by simpa using h1)
          · exact Or.inr (by simpa using h1)
        · split at h
          · cases h
          · simp at h
            exact ⟨h.2.1.symm, h.2.2.symm⟩

/-- Witness for C3 at a concrete miss with no digest header: the digest
check passes (the fallback `ref` has no `sha256:` prefix) and the writer
is closed. -/
theorem digest_gate_commits_witness :
    (getObjectTail [] false ObjectType.blob ("v1".toList)
      { status := 200, contentTypeHeader := "ct".toList,
        dockerContentDigestHeader := [],
        body := [{ data := [1], rerr := ReadErr.eof }] }
      (fun _ => "aa".toList) [] []).closeInvoked = true := by
  exact (digest_gate_commits [] false ObjectType.blob ("v1".toList)
    { status := 200, contentTypeHeader := "ct".toList,
      dockerContentDigestHeader := [],
      body := [{ data := [1], rerr := ReadErr.eof }] }
    (fun _ => "aa".toList) [] [] rfl rfl rfl).1.mpr (Or.inl (by decide))

/-- C9: on a non-skipped 2xx miss whose body is empty (every read returns
zero bytes), the cache writer's `Write` is never invoked (the cache sink
is returned untouched when streaming succeeds), nothing is committed, a
`Close` on the never-written writer is a no-op returning `nil` and
touching no file, and a later lookup on the still-absent files is a miss
with a usable writer — so the next identical request goes upstream again. -/
theorem empty_body_not_cached
    (skipReason0 : List Char) (isHead : Bool) (kind : ObjectType)
    (ref : List Char) (resp : UpstreamResponse)
    (hashHex : List Nat → List Char) (cacheSched clientSched : List WriteRes)
    (hskip : skipReason0 = []) (h2 : resp.status / 100 = 2)
    (hempty : ∀ ev ∈ resp.body, ev.data = []) :
    (getObjectTail skipReason0 isHead kind ref resp hashHex cacheSched
      clientSched).commit = none ∧
    ((getObjectTail skipReason0 isHead kind ref resp hashHex cacheSched
        clientSched).streamErr = false →
      (getObjectTail skipReason0 isHead kind ref resp hashHex cacheSched
        clientSched).cacheSink = some { sched := cacheSched, buf := [] }) ∧
    (∀ dir obj fs sb,
      fwClose { cacheDirectory := dir, object := obj, file := none } fs sb =
        (fs, true)) ∧
    (∀ dir obj readRes parse,
      GetCache dir obj StatResult.notExist StatResult.notExist readRes parse =
        { cached := none,
          writer := some { cacheDirectory := dir, object := obj, file := none },
          err := false }) := by
  subst hskip
  have hsr : (if resp.status / 100 = 2 then ([] : List Char)
      else "non-2xx upstream response".toList) = [] := if_pos h2
  refine ⟨?_, ?_, fun dir obj fs sb => rfl, fun dir obj readRes parse => rfl⟩
  · simp only [getObjectTail, hsr, decide_nil_eq, decide_True]
    rcases empty_data_run resp.body hempty
        (missWriters true kind isHead cacheSched clientSched) with hrun | hrun <;>
      rw [hrun]
    · simp [commitDecision_true_eq, apply_ite MissOutcome.commit, missWriters]
  · simp only [getObjectTail, hsr, decide_nil_eq, decide_True]
    rcases empty_data_run resp.body hempty
        (missWriters true kind isHead cacheSched clientSched) with hrun | hrun <;>
      rw [hrun]
    · intro _
      simp [commitDecision_true_eq, apply_ite MissOutcome.cacheSink, missWriters]
    · intro h
      simp at h

/-- Witness for C9 at a concrete empty-bodied 200 miss. -/
theorem empty_body_not_cached_witness :
    (getObjectTail [] false ObjectType.manifest ("v1".toList)
      { status := 200, contentTypeHeader := "ct".toList,
        dockerContentDigestHeader := [],
        body := [{ data := [], rerr := ReadErr.eof }] }
      (fun _ => "aa".toList) [] []).commit = none := by
  exact (empty_body_not_cached [] false ObjectType.manifest ("v1".toList)
    { status := 200, contentTypeHeader := "ct".toList,
      dockerContentDigestHeader := [],
      body := [{ data := [], rerr := ReadErr.eof }] }
    (fun _ => "aa".toList) [] [] rfl rfl (by decide)).1

/-- C10: on a GET cache hit the open error of the payload stream is
discarded (`reader, _ := cached.GetReader()`); when the open fails the
handler proceeds with the nil reader — invoking `Close` and `Read` on it —
rather than writing an error response or falling back to upstream, and on
no open outcome does the hit path produce an error response or an
upstream fetch. -/
theorem hit_open_error_discarded (clientSched : List WriteRes) :
    (serveHitGet (Except.error ()) clientSched).usedNilReader = true ∧
    (∀ openResult, (serveHitGet openResult clientSched).errorResponse = false ∧
      (serveHitGet openResult clientSched).wentUpstream = false) := by
  refine ⟨rfl, fun openResult => ?_⟩
  rcases openResult with e | bytes
  · exact ⟨rfl, rfl⟩
  · simp only [serveHitGet]
    rcases h : readIntoWriters [{ data := bytes, rerr := ReadErr.eof }]
        [{ sched := clientSched, buf := [] }] with e | s2 <;>
      exact ⟨rfl, rfl⟩

theorem basic_not_prefix_of_bearer (s : List Char)
    (h : hasPrefixStr ("Bearer".toList) s = true) :
    hasPrefixStr ("Basic".toList) s = false := by
  rw [hasPrefixStr, List.isPrefixOf_iff_prefix] at h
  obtain ⟨t, rfl⟩ := h
  rfl

/-- C5 counterexample: upstream 401 with a Bearer challenge, configured
credentials, token endpoint reachable but the `token` field absent from
its response: `reqWithCreds` returns an error and `GetObject` answers
500 — the client is *not* served the final 401. -/
theorem creds_substep_counterexample :
    respondStatus (reqWithCreds
      (Except.ok
        { status := 401, wwwAuthenticate := "Bearer realm=x".toList,
          host := "h".toList })
      [] (fun _ => some { Username := "u".toList, Password := "p".toList })
      (Except.ok ()) (Except.ok []) (fun _ => [])
      (Except.ok
        { status := 200, wwwAuthenticate := [], host := "h".toList }))
      = 500 ∧ (500 : Nat) ≠ 401 := by
  exact ⟨rfl, by decide⟩

/-- C5 (amended): when an upstream 401 with configured credentials and a
Bearer challenge triggers the exchange and any sub-step fails — the token
endpoint request errors, the token response body cannot be read, or the
`token` field is absent or empty — `reqWithCreds` propagates an error and
the handler serves 500, not the final 401. -/
theorem bearer_substep_failure_yields_500
    (resp : HttpResponse) (lookupCreds : List Char → Option RegistryCreds)
    (tokenHTTP : Except Unit Unit) (bodyRead : Except Unit (List Nat))
    (tokenOf : List Nat → List Char) (retry : Except Unit HttpResponse)
    (h401 : resp.status = 401)
    (hcreds : (lookupCreds resp.host).isSome = true)
    (hbearer : hasPrefixStr ("Bearer".toList) resp.wwwAuthenticate = true)
    (hfail : tokenHTTP = .error () ∨ bodyRead = .error () ∨
      (∃ b, bodyRead = .ok b ∧ tokenOf b = [])) :
    reqWithCreds (.ok resp) [] lookupCreds tokenHTTP bodyRead tokenOf retry =
      .error () ∧
    respondStatus (reqWithCreds (.ok resp) [] lookupCreds tokenHTTP bodyRead
      tokenOf retry) = 500 := by
  obtain ⟨c, hc⟩ := Option.isSome_iff_exists.mp hcreds
  have hbasic : hasPrefixStr (['B', 'a', 's', 'i', 'c']) resp.wwwAuthenticate
      = false := by
    simpa using basic_not_prefix_of_bearer _ hbearer
  have hbearer2 : hasPrefixStr (['B', 'e', 'a', 'r', 'e', 'r'])
      resp.wwwAuthenticate = true := by
    simpa using hbearer
  have hmain : reqWithCreds (.ok resp) [] lookupCreds tokenHTTP bodyRead
      tokenOf retry = .error () := by
    rcases hfail with hf | hf | ⟨b, hb, ht⟩
    · simp [reqWithCreds, h401, hc, hbasic, hbearer2, hf]
    · rcases tokenHTTP with ⟨⟩ | u
      · simp [reqWithCreds, h401, hc, hbasic, hbearer2]
      · simp [reqWithCreds, h401, hc, hbasic, hbearer2, hf]
    · rcases tokenHTTP with ⟨⟩ | u
      · simp [reqWithCreds, h401, hc, hbasic, hbearer2]
      · simp [reqWithCreds, h401, hc, hbasic, hbearer2, hb, ht]
  refine ⟨hmain, ?_⟩
  rw [hmain]
  rfl

/-- Witness for C5 at a concrete failing token-endpoint request. -/
theorem bearer_substep_failure_yields_500_witness :
    respondStatus (reqWithCreds
      (Except.ok
        { status := 401, wwwAuthenticate := "Bearer realm=y".toList,
          host := "g".toList })
      [] (fun _ => some { Username := "u".toList, Password := "p".toList })
      (Except.error ()) (Except.ok [1]) (fun _ => "T".toList)
      (Except.ok
        { status := 200, wwwAuthenticate := [], host := "g".toList }))
      = 500 := by
  exact (bearer_substep_failure_yields_500
    { status := 401, wwwAuthenticate := "Bearer realm=y".toList,
      host := "g".toList }
    (fun _ => some { Username := "u".toList, Password := "p".toList })
    (Except.error ()) (Except.ok [1]) (fun _ => "T".toList)
    (Except.ok
      { status := 200, wwwAuthenticate := [], host := "g".toList })
    rfl rfl (by decide) (Or.inl rfl)).2

/-- C7: a blob's skip reason is always empty; a manifest's skip reason is
non-empty iff at least one trigger fires: manifest caching disabled, the
ref matching the configured skip-tags regex, the registry being in the
private-registry set, or the repository being in the skip-images set. -/
theorem skip_reason_characterization (cfg : SkipConfig)
    (o : ObjectIdentifier) :
    (o.Kind = ObjectType.blob → getSkipReason cfg o = []) ∧
    (o.Kind = ObjectType.manifest →
      (getSkipReason cfg o ≠ [] ↔
        (cfg.cacheManifests = false ∨
          (∃ m, cfg.skipTags = some m ∧ m o.Ref = true) ∨
          (∃ p, cfg.privateRegistries = some p ∧ p o.Registry = true) ∨
          cfg.skipImages o.Repository = true))) := by
  constructor
  · intro hb
    rw [getSkipReason, if_neg]
    rw [hb]
    simp
  · intro hm
    rw [getSkipReason, if_pos hm]
    rcases hst : cfg.skipTags with _ | m
    · rcases hpr : cfg.privateRegistries with _ | p
      · cases hcm : cfg.cacheManifests <;>
          cases h4 : cfg.skipImages o.Repository <;>
          simp [hst, hpr, hcm, h4]
      · cases hcm : cfg.cacheManifests <;>
          cases h4 : cfg.skipImages o.Repository <;>
          cases h3 : p o.Registry <;>
          simp [hst, hpr, hcm, h4, h3]
    · rcases hpr : cfg.privateRegistries with _ | p
      · cases hcm : cfg.cacheManifests <;>
          cases h4 : cfg.skipImages o.Repository <;>
          cases h2 : m o.Ref <;>
          simp [hst, hpr, hcm, h4, h2]
      · cases hcm : cfg.cacheManifests <;>
          cases h4 : cfg.skipImages o.Repository <;>
          cases h2 : m o.Ref <;>
          cases h3 : p o.Registry <;>
          simp [hst, hpr, hcm, h4, h2, h3]

/-- Witness for C7: a manifest on the skip-images list gets a non-empty
skip reason; its `.2` applied at that configuration. -/
theorem skip_reason_characterization_witness :
    getSkipReason
      { cacheManifests := true, skipTags := none,
        privateRegistries := none, skipImages := fun _ => true }
      { Registry := "r".toList, Repository := "x".toList,
        Ref := "latest".toList, Kind := ObjectType.manifest } ≠ [] := by
  exact (skip_reason_characterization
    { cacheManifests := true, skipTags := none,
      privateRegistries := none, skipImages := fun _ => true }
    { Registry := "r".toList, Repository := "x".toList,
      Ref := "latest".toList, Kind := ObjectType.manifest }).2 rfl
    |>.mpr (Or.inr (Or.inr (Or.inr rfl)))

/-- C6: a request on a valid `/v2/{repo}/manifests/{ref}` or
`/v2/{repo}/blobs/{digest}` path whose method is neither GET nor HEAD is
answered 400 and is never dispatched to the cache-or-proxy engine
(spec-modelled router: the canonical `pkg/mux` is absent from the sources
at hand). -/
theorem bad_method_rejected (method repo ref : List Char)
    (kind : ObjectType) (ns : List Char)
    (hm1 : method ≠ "GET".toList) (hm2 : method ≠ "HEAD".toList) :
    routeV2 method repo ref kind ns = RouterAction.respond 400 ∧
    (∀ o h, routeV2 method repo ref kind ns ≠ RouterAction.dispatch o h) := by
  have hroute : routeV2 method repo ref kind ns = RouterAction.respond 400 := by
    rw [routeV2]
    by_cases hns : ns = []
    · rw [if_pos hns]
    · rw [if_neg hns, if_neg]
      push_neg
      exact ⟨hm1, hm2⟩
  exact ⟨hroute, fun o h => by rw [hroute]; intro hcontra; cases hcontra⟩

/-- Witness for C6 at method PUT. -/
theorem bad_method_rejected_witness :
    routeV2 ("PUT".toList) ("library/alpine".toList) ("latest".toList)
      ObjectType.manifest ("docker.io".toList) = RouterAction.respond 400 := by
  exact (bad_method_rejected ("PUT".toList) ("library/alpine".toList)
    ("latest".toList) ObjectType.manifest ("docker.io".toList)
    (by decide) (by decide)).1

end RegistryCache
